import Mathlib

/-
Verification of the masked-grid geometry engine of the PyAutoArray repository
(file autoarray/structures/mask.py and collaborators).

Conventions of the embedding:
* a 2D boolean mask is a list of rows, each row a list of booleans, with
  true = masked (excluded) and false = unmasked, exactly as in the source;
* Python floats are embedded as rationals, so the arithmetic of the source
  (additions, subtractions, divisions by pixel scales) is exact;
* Python int() truncation toward zero is embedded by pyInt below;
* fallible constructors return Except MaskErr instead of raising.
-/

namespace AutoArray

/-- Error values corresponding to the exception classes of autoarray.exc. -/
inductive MaskErr where
  /-- exc.MaskException -/
  | maskException : MaskErr
  /-- exc.RegionException -/
  | regionException : MaskErr
  /-- Python ZeroDivisionError -/
  | zeroDivisionError : MaskErr
  deriving Repr, DecidableEq

/-- Python int() applied to an exact rational: truncation toward zero, which
is the floor for nonnegative arguments and the negated floor of the negation
for negative ones. -/
def pyInt (q : ℚ) : ℤ := if 0 ≤ q then ⌊q⌋ else -⌊-q⌋

/-! ### Region (modelled from the spec)

The Region2D class itself is not among the given sources; only its unit tests
(test_autoarray/unit/structures/test_region.py) are. -/

/-- Modelled from the spec: the Region data model, four integers
(row_start, row_end, col_start, col_end); the class body is missing from the
sources, its contract is given by section 4.1 of the spec and test_region.py. -/
structure Region2D where
  y0 : ℤ
  y1 : ℤ
  x0 : ℤ
  x1 : ℤ
  deriving Repr, DecidableEq

/-- Modelled from the spec: total_rows = y1 - y0. -/
def Region2D.total_rows (r : Region2D) : ℤ := r.y1 - r.y0

/-- Modelled from the spec: total_columns = x1 - x0. -/
def Region2D.total_columns (r : Region2D) : ℤ := r.x1 - r.x0

/-- Modelled from the spec: constructing a Region with (y0, y1, x0, x1) fails
with RegionError if y0 >= y1, x0 >= x1, or any coordinate is negative. -/
def mkRegion2D (y0 y1 x0 x1 : ℤ) : Except MaskErr Region2D :=
  if y1 ≤ y0 ∨ x1 ≤ x0 ∨ y0 < 0 ∨ y1 < 0 ∨ x0 < 0 ∨ x1 < 0 then
    Except.error MaskErr.regionException
  else
    Except.ok ⟨y0, y1, x0, x1⟩

/-! ### Sub-pixel mask construction (AbstractSubMask.__new__, mask.py 283-313)

The constructor stores sub_size unchecked, computes sub_length = int(sub_size
** 2.0) and sub_fraction = 1.0 / sub_length; the division raises
ZeroDivisionError when sub_length is zero. -/

/-- Sub-sampling metadata attached by AbstractSubMask.__new__:
(sub_size, sub_length, sub_fraction). -/
structure SubMeta where
  sub_size : ℤ
  sub_length : ℤ
  sub_fraction : ℚ
  deriving Repr, DecidableEq

/-- Embedding of AbstractSubMask.__new__ (mask.py lines 283-313): no
validation of sub_size is performed; sub_length = sub_size squared and
sub_fraction = 1.0 / sub_length, the latter raising ZeroDivisionError when
sub_length is zero. -/
def subMaskNew (sub_size : ℤ) : Except MaskErr SubMeta :=
  let sub_length : ℤ := sub_size ^ 2
  if sub_length = 0 then
    Except.error MaskErr.zeroDivisionError
  else
    Except.ok ⟨sub_size, sub_length, 1 / (sub_length : ℚ)⟩

/-! ### Pixel coordinates from arc-second coordinates (mask.py 120-132) -/

/-- Embedding of AbstractMask.central_pixel_coordinates (mask.py 62-64):
((rows - 1) / 2, (cols - 1) / 2) as exact rationals. -/
def central_pixel_coordinates (shape : ℕ × ℕ) : ℚ × ℚ :=
  (((shape.1 : ℚ) - 1) / 2, ((shape.2 : ℚ) - 1) / 2)

/-- Embedding of AbstractMask.pixel_coordinates_from_arcsec_coordinates
(mask.py 120-132): each component is Python int() of
(+- (coordinate - origin)) / pixel_scale + central pixel coordinate + 0.5. -/
def pixel_coordinates_from_arcsec_coordinates (shape : ℕ × ℕ)
    (pixel_scales origin arcsec_coordinates : ℚ × ℚ) : ℤ × ℤ :=
  (pyInt ((-arcsec_coordinates.1 + origin.1) / pixel_scales.1
      + (central_pixel_coordinates shape).1 + 1 / 2),
   pyInt ((arcsec_coordinates.2 - origin.2) / pixel_scales.2
      + (central_pixel_coordinates shape).2 + 1 / 2))

/-- The convention claimed by the spec for the same conversion: floor of the
shifted value, in both components. -/
def pixel_coordinates_floor_convention (shape : ℕ × ℕ)
    (pixel_scales origin arcsec_coordinates : ℚ × ℚ) : ℤ × ℤ :=
  (⌊(-arcsec_coordinates.1 + origin.1) / pixel_scales.1
      + (central_pixel_coordinates shape).1 + 1 / 2⌋,
   ⌊(arcsec_coordinates.2 - origin.2) / pixel_scales.2
      + (central_pixel_coordinates shape).2 + 1 / 2⌋)

/-! ### Masks as 2D boolean grids

A mask is a list of rows; true = masked. Positions outside the grid read as
masked, matching the treatment of out-of-grid neighbours in the source. -/

/-- Reading a mask entry; out-of-grid positions count as masked (true). -/
def maskAt (cells : List (List Bool)) (r c : ℕ) : Bool :=
  (cells.getD r []).getD c true

/-- All grid positions of a mask, in row-major scan order. -/
def allPositions (cells : List (List Bool)) : List (ℕ × ℕ) :=
  (List.range cells.length).flatMap fun r =>
    (List.range (cells.getD r []).length).map fun c => (r, c)

/-- The unmasked (false) positions of a mask, in row-major scan order. -/
def unmaskedPositions (cells : List (List Bool)) : List (ℕ × ℕ) :=
  (allPositions cells).filter fun p => !maskAt cells p.1 p.2

/-! ### ScaledMask construction (ScaledMask.__new__, mask.py 479-511) -/

/-- Metadata attached by ScaledMask.__new__: the sub-sampling metadata of the
superclass constructor, pixel scales and origin. -/
structure ScaledMaskMeta where
  pixel_scales : ℚ × ℚ
  sub : SubMeta
  origin : ℚ × ℚ
  deriving Repr, DecidableEq

/-- Embedding of ScaledMask.__new__ (mask.py 479-511): the superclass
constructor runs first (computing sub_length and sub_fraction), then a
MaskException is raised when either pixel scale is zero or negative. -/
def scaledMaskNew (pixel_scales : ℚ × ℚ) (sub_size : ℤ) (origin : ℚ × ℚ) :
    Except MaskErr ScaledMaskMeta :=
  match subMaskNew sub_size with
  | Except.error e => Except.error e
  | Except.ok s =>
    if pixel_scales.1 ≤ 0 ∨ pixel_scales.2 ≤ 0 then
      Except.error MaskErr.maskException
    else
      Except.ok ⟨pixel_scales, s, origin⟩

/-- Embedding of ScaledMask.resized_mask_from_new_shape (mask.py 816-860),
restricted to the centre bookkeeping and the metadata of the produced mask:
with no centre the sentinel (-1, -1) is used, a pixel centre is used as given,
an arcsec centre is converted through
pixel_coordinates_from_arcsec_coordinates, and supplying both raises a
MaskException. The resulting mask keeps pixel_scales and sub_size and has the
resolved centre as its origin. -/
def resized_mask_from_new_shape (shape : ℕ × ℕ) (m : ScaledMaskMeta)
    (new_centre_pixels : Option (ℤ × ℤ)) (new_centre_arcsec : Option (ℚ × ℚ)) :
    Except MaskErr ScaledMaskMeta :=
  match new_centre_pixels, new_centre_arcsec with
  | Option.none, Option.none =>
    scaledMaskNew m.pixel_scales m.sub.sub_size (-1, -1)
  | Option.some p, Option.none =>
    scaledMaskNew m.pixel_scales m.sub.sub_size ((p.1 : ℚ), (p.2 : ℚ))
  | Option.none, Option.some a =>
    let p := pixel_coordinates_from_arcsec_coordinates shape m.pixel_scales
      m.origin a
    scaledMaskNew m.pixel_scales m.sub.sub_size ((p.1 : ℚ), (p.2 : ℚ))
  | Option.some _, Option.some _ =>
    Except.error MaskErr.maskException

/-- Embedding of ScaledMask.binned_up_mask_from_bin_up_factor (mask.py
862-876), metadata part: the new mask is built with pixel scales multiplied by
the bin-up factor, the same sub_size and the same origin. -/
def binned_up_mask_from_bin_up_factor (m : ScaledMaskMeta) (bin_up_factor : ℤ) :
    Except MaskErr ScaledMaskMeta :=
  scaledMaskNew
    (m.pixel_scales.1 * bin_up_factor, m.pixel_scales.2 * bin_up_factor)
    m.sub.sub_size m.origin

/-! ### Blurring mask (mask.py 70-88) and edge/border mask metadata
(mask.py 90-118) -/

/-- Modelled from the spec:
mask_util.blurring_mask_from_mask_and_kernel_shape, absent from the sources.
Its unmasked set is exactly the masked pixels within a (kh // 2, kw // 2)
Chebyshev offset of some unmasked pixel. -/
def blurringCells (cells : List (List Bool)) (kernel_shape : ℕ × ℕ) :
    List (List Bool) :=
  cells.enum.map fun rrow =>
    (List.range rrow.2.length).map fun c =>
      !(maskAt cells rrow.1 c &&
        (unmaskedPositions cells).any fun p =>
          decide (((rrow.1 : ℤ) - p.1).natAbs ≤ kernel_shape.1 / 2) &&
          decide (((c : ℤ) - p.2).natAbs ≤ kernel_shape.2 / 2))

/-- Embedding of AbstractMask.blurring_mask_from_kernel_shape (mask.py 70-88)
as called on a ScaledMask: a MaskException is raised when either kernel
dimension is even; otherwise the blurring cells are computed and the new mask
is constructed with the parent pixel scales, sub_size 1, and no origin
argument, so the constructor default origin (0.0, 0.0) applies. -/
def blurring_mask_from_kernel_shape (m : ScaledMaskMeta)
    (cells : List (List Bool)) (kernel_shape : ℕ × ℕ) :
    Except MaskErr (List (List Bool) × ScaledMaskMeta) :=
  if kernel_shape.1 % 2 = 0 ∨ kernel_shape.2 % 2 = 0 then
    Except.error MaskErr.maskException
  else
    match scaledMaskNew m.pixel_scales 1 (0, 0) with
    | Except.error e => Except.error e
    | Except.ok meta => Except.ok (blurringCells cells kernel_shape, meta)

/-- Embedding of the metadata of AbstractMask.edge_mask and
AbstractMask.border_mask (mask.py 90-118): both construct the derived mask
with the parent pixel scales, sub_size 1, and origin = self.origin. -/
def edge_or_border_mask_meta (m : ScaledMaskMeta) :
    Except MaskErr ScaledMaskMeta :=
  scaledMaskNew m.pixel_scales 1 m.origin

/-! ### Unmasked grid (ScaledMask.unmasked_grid, mask.py 940-953) -/

/-- Modelled from the spec:
grid_util.grid_1d_from_shape_pixel_scales_sub_size_and_origin at sub_size 1,
absent from the sources. Section 4.4 of the spec: one (y, x) physical
coordinate per pixel in row-major scan order, physical y decreasing with row
index, physical x increasing with column index, centred at the origin; at
sub_size 1 the coordinate is the pixel centre. -/
def unmasked_grid (shape : ℕ × ℕ) (pixel_scales origin : ℚ × ℚ) :
    List (ℚ × ℚ) :=
  (List.range shape.1).flatMap fun r =>
    (List.range shape.2).map fun c =>
      ((((shape.1 : ℚ) - 1) / 2 - r) * pixel_scales.1 + origin.1,
       ((c : ℚ) - ((shape.2 : ℚ) - 1) / 2) * pixel_scales.2 + origin.2)

/-! ### Edge and border pixels (mask.py 134-166)

The index computations delegate to mask_util.edge_1d_indexes_from_mask and
mask_util.border_1d_indexes_from_mask, which are absent from the sources, so
they are modelled from the spec (sections 4.2 and the glossary): an edge pixel
is an unmasked pixel with a masked or out-of-grid 4-neighbour; a border pixel
is an edge pixel on the outer topological boundary reachable from outside the
unmasked region. -/

/-- Whether some 4-neighbour of (r, c) is masked or outside the grid. -/
def hasMaskedNeighbour (cells : List (List Bool)) (r c : ℕ) : Bool :=
  decide (r = 0) || maskAt cells (r - 1) c || maskAt cells (r + 1) c ||
  decide (c = 0) || maskAt cells r (c - 1) || maskAt cells r (c + 1)

/-- Modelled from the spec: mask_util.edge_1d_indexes_from_mask, absent from
the sources, as 2D positions: the unmasked pixels, in scan order, with a
masked or out-of-grid 4-neighbour. -/
def edgePixels (cells : List (List Bool)) : List (ℕ × ℕ) :=
  (unmaskedPositions cells).filter fun p => hasMaskedNeighbour cells p.1 p.2

/-- Whether position (r, c) lies on the outermost ring of the grid. -/
def onGridBoundary (cells : List (List Bool)) (r c : ℕ) : Bool :=
  decide (r = 0) || decide (c = 0) || decide (cells.length ≤ r + 1) ||
  decide ((cells.getD r []).length ≤ c + 1)

/-- Whether some 4-neighbour of (r, c) belongs to the position list s. -/
def touchesList (s : List (ℕ × ℕ)) (r c : ℕ) : Bool :=
  (decide (0 < r) && s.contains (r - 1, c)) || s.contains (r + 1, c) ||
  (decide (0 < c) && s.contains (r, c - 1)) || s.contains (r, c + 1)

/-- One step of the flood fill computing the masked cells reachable from
outside the grid: a masked cell joins when it lies on the grid boundary or
4-touches a cell already reached. -/
def extStep (cells : List (List Bool)) (s : List (ℕ × ℕ)) : List (ℕ × ℕ) :=
  (allPositions cells).filter fun p =>
    maskAt cells p.1 p.2 &&
    (onGridBoundary cells p.1 p.2 || touchesList s p.1 p.2)

/-- The masked cells 4-connected to the outside of the grid, via a flood fill
iterated once per grid position, which reaches the fixed point. -/
def exteriorMasked (cells : List (List Bool)) : List (ℕ × ℕ) :=
  (extStep cells)^[(allPositions cells).length] []

/-- Modelled from the spec: the border condition on an edge pixel, absent
from the sources (mask_util.border_1d_indexes_from_mask): the pixel lies on
the outer topological boundary reachable from outside the unmasked region,
that is, it is adjacent to the outside of the grid or to a masked cell that is
4-connected to the outside through masked cells. -/
def isBorderAt (cells : List (List Bool)) (r c : ℕ) : Bool :=
  onGridBoundary cells r c || touchesList (exteriorMasked cells) r c

/-- Modelled from the spec: border pixels are the edge pixels satisfying the
outer-boundary condition, mirroring the source structure in which the border
indexes are selected from the edge indexes. -/
def borderPixels (cells : List (List Bool)) : List (ℕ × ℕ) :=
  (edgePixels cells).filter fun p => isBorderAt cells p.1 p.2

/-- Whether the mask has an interior hole: a masked cell not 4-connected to
the outside of the grid through masked cells. -/
def hasInteriorHole (cells : List (List Bool)) : Bool :=
  (allPositions cells).any fun p =>
    maskAt cells p.1 p.2 && !(exteriorMasked cells).contains p

/-- Modelled from the spec:
mask_util.mask_circular_annular_from_shape_pixel_scales_and_radii, absent
from the sources: a pixel is unmasked exactly when the distance of its centre
physical coordinate from the annulus centre lies between the inner and outer
radii. Distances are compared squared (squaring is monotone on nonnegative
reals), so the two radii are supplied squared to stay within the rationals. -/
def mask_circular_annular_sq (shape : ℕ × ℕ) (pixel_scales : ℚ × ℚ)
    (innerRadiusSq outerRadiusSq : ℚ) (centre : ℚ × ℚ) : List (List Bool) :=
  (List.range shape.1).map fun r =>
    (List.range shape.2).map fun c =>
      let yAs := (((shape.1 : ℚ) - 1) / 2 - r) * pixel_scales.1
      let xAs := ((c : ℚ) - ((shape.2 : ℚ) - 1) / 2) * pixel_scales.2
      let rSq := (yAs - centre.1) ^ 2 + (xAs - centre.2) ^ 2
      if innerRadiusSq ≤ rSq ∧ rSq ≤ outerRadiusSq then false else true

/-! ### Zoom region (ScaledMask._zoom_region, mask.py 1027-1051) -/

/-- The tight bounding box (min row, max row, min col, max col) of the
unmasked pixels, or none when every pixel is masked; this is the
np.amin/np.amax computation over np.where of the inverted mask in
_zoom_region. -/
def bboxOfMask (cells : List (List Bool)) : Option (ℕ × ℕ × ℕ × ℕ) :=
  match unmaskedPositions cells with
  | [] => Option.none
  | p :: ps =>
    Option.some
      (ps.foldl (fun a q => min a q.1) p.1,
       ps.foldl (fun a q => max a q.1) p.1,
       ps.foldl (fun a q => min a q.2) p.2,
       ps.foldl (fun a q => max a q.2) p.2)

/-- The arithmetic of _zoom_region after the bounding box is known: ylength
and xlength are the differences of the box extremes; when one exceeds the
other, the shorter dimension is moved outward on both sides by
int(length_difference / 2.0), a floor since the difference is positive; the
result is [y0, y1 + 1, x0, x1 + 1]. -/
def zoomFromBBox (y0n y1n x0n x1n : ℕ) : ℤ × ℤ × ℤ × ℤ :=
  let y0 : ℤ := y0n
  let y1 : ℤ := y1n
  let x0 : ℤ := x0n
  let x1 : ℤ := x1n
  let ylength := y1 - y0
  let xlength := x1 - x0
  if xlength < ylength then
    let d := ylength - xlength
    (y0, y1 + 1, x0 - d / 2, x1 + d / 2 + 1)
  else if ylength < xlength then
    let d := xlength - ylength
    (y0 - d / 2, y1 + d / 2 + 1, x0, x1 + 1)
  else
    (y0, y1 + 1, x0, x1 + 1)

/-- Embedding of ScaledMask._zoom_region (mask.py 1027-1051): the tight
bounding box of the unmasked pixels, with the shorter dimension extended on
both sides by the floor of half the length difference. The source indexes an
empty array when the mask has no unmasked pixel; that undefined case is none
here. -/
def zoomRegion (cells : List (List Bool)) : Option (ℤ × ℤ × ℤ × ℤ) :=
  match bboxOfMask cells with
  | Option.none => Option.none
  | Option.some (y0n, y1n, x0n, x1n) => Option.some (zoomFromBBox y0n y1n x0n x1n)

/-- A one-pixel-thick circular annulus on a 5 by 5 grid: inner radius 1,
outer radius 3/2 (radii squared: 1 and 9/4), unit pixel scales, centred. -/
def annulusThin : List (List Bool) :=
  mask_circular_annular_sq (5, 5) (1, 1) 1 (9 / 4) (0, 0)

/-- A thick circular annulus on a 5 by 5 grid: inner radius 1/2, outer radius
2 times the square root of 2 (radii squared: 1/4 and 8), unit pixel scales,
centred; only the central pixel is masked inside the ring. -/
def annulusThick : List (List Bool) :=
  mask_circular_annular_sq (5, 5) (1, 1) (1 / 4) 8 (0, 0)

/-! ## Theorems -/

set_option maxRecDepth 100000

/-- Truncation toward zero agrees with the floor on nonnegative rationals. -/
theorem pyInt_eq_floor_of_nonneg (q : ℚ) (h : 0 ≤ q) : pyInt q = ⌊q⌋ := by
  rw [pyInt, if_pos h]

/-- C5: for every quadruple (y0, y1, x0, x1), constructing a Region raises a
RegionError exactly when y0 >= y1, x0 >= x1, or some coordinate is negative;
for every quadruple with 0 <= y0 < y1 and 0 <= x0 < x1 construction succeeds
and the Region has total_rows = y1 - y0 and total_columns = x1 - x0. -/
theorem region2d_constructor_contract (y0 y1 x0 x1 : ℤ) :
    (mkRegion2D y0 y1 x0 x1 = Except.error MaskErr.regionException ↔
      y1 ≤ y0 ∨ x1 ≤ x0 ∨ y0 < 0 ∨ y1 < 0 ∨ x0 < 0 ∨ x1 < 0) ∧
    (0 ≤ y0 → y0 < y1 → 0 ≤ x0 → x0 < x1 →
      mkRegion2D y0 y1 x0 x1 = Except.ok ⟨y0, y1, x0, x1⟩ ∧
      (Region2D.mk y0 y1 x0 x1).total_rows = y1 - y0 ∧
      (Region2D.mk y0 y1 x0 x1).total_columns = x1 - x0) := by
  unfold mkRegion2D
  by_cases hc : y1 ≤ y0 ∨ x1 ≤ x0 ∨ y0 < 0 ∨ y1 < 0 ∨ x0 < 0 ∨ x1 < 0
  · rw [if_pos hc]
    exact ⟨by simp [hc], fun h1 h2 h3 h4 => absurd hc (by omega)⟩
  · rw [if_neg hc]
    exact ⟨by simp [hc], fun _ _ _ _ => ⟨rfl, rfl, rfl⟩⟩

/-- Witness for C5 at the concrete quadruple (0, 2, 1, 4). -/
theorem region2d_constructor_contract_witness :
    mkRegion2D 0 2 1 4 = Except.ok ⟨0, 2, 1, 4⟩ ∧
    (Region2D.mk 0 2 1 4).total_rows = 2 - 0 ∧
    (Region2D.mk 0 2 1 4).total_columns = 4 - 1 :=
  (region2d_constructor_contract 0 2 1 4).2 (by decide) (by decide) (by decide)
    (by decide)

/-- C7 counterexample: AbstractSubMask.__new__ performs no validation, so
construction with sub_size = -1 succeeds and yields a mask whose sub_size is
below 1, contradicting the claimed invariant. -/
theorem sub_mask_accepts_negative_sub_size :
    subMaskNew (-1) = Except.ok ⟨-1, 1, 1⟩ ∧ ¬(1 ≤ (-1 : ℤ)) := by
  refine ⟨?_, by decide⟩
  unfold subMaskNew
  norm_num

/-- C7 amended: every successfully constructed sub-pixel mask has
sub_length = sub_size squared and sub_fraction = 1 / sub_length, and
construction succeeds exactly when sub_size is nonzero (sub_size = 0 fails
with a ZeroDivisionError); the bound sub_size >= 1 is not enforced. -/
theorem sub_mask_constructor_invariant (s : ℤ) :
    ((subMaskNew s).isOk = true ↔ s ≠ 0) ∧
    (∀ t : SubMeta, subMaskNew s = Except.ok t →
      t.sub_size = s ∧ t.sub_length = s ^ 2 ∧ t.sub_fraction = 1 / (s : ℚ) ^ 2) := by
  unfold subMaskNew
  by_cases hs : s ^ 2 = 0
  · have hs0 : s = 0 := (pow_eq_zero_iff (by norm_num)).mp hs
    subst hs0
    simp [Except.isOk, Except.toBool]
  · have hs0 : s ≠ 0 := fun h => hs (by rw [h]; ring)
    rw [if_neg hs]
    refine ⟨by simp [Except.isOk, Except.toBool, hs0], ?_⟩
    intro t ht
    have ht' := Except.ok.inj ht
    rw [← ht']
    refine ⟨rfl, rfl, ?_⟩
    push_cast
    ring

/-- Witness for C7 at the concrete sub_size 2. -/
theorem sub_mask_constructor_invariant_witness :
    (subMaskNew 2).isOk = true ∧
    ((⟨2, 4, 1 / 4⟩ : SubMeta).sub_size = 2 ∧
      (⟨2, 4, 1 / 4⟩ : SubMeta).sub_length = 2 ^ 2 ∧
      (⟨2, 4, 1 / 4⟩ : SubMeta).sub_fraction = 1 / (2 : ℚ) ^ 2) :=
  ⟨(sub_mask_constructor_invariant 2).1.mpr (by decide),
   (sub_mask_constructor_invariant 2).2 ⟨2, 4, 1 / 4⟩
     (by unfold subMaskNew; norm_num)⟩

/-- C8: on a 3 by 3 mask with unit pixel scales and origin (0, 0), the
unmasked grid is exactly the row-major coordinate sequence
(1,-1),(1,0),(1,1),(0,-1),(0,0),(0,1),(-1,-1),(-1,0),(-1,1), with physical y
decreasing as the row index increases and physical x increasing as the column
index increases. -/
theorem unmasked_grid_3x3_unit_scales :
    unmasked_grid (3, 3) (1, 1) (0, 0) =
      [(1, -1), (1, 0), (1, 1), (0, -1), (0, 0), (0, 1),
       (-1, -1), (-1, 0), (-1, 1)] := by
  norm_num [unmasked_grid, List.range_succ]

/-- With a nonzero sub_size and positive pixel scales, ScaledMask
construction succeeds and its metadata fields hold the supplied values. -/
theorem scaledMaskNew_ok (pixel_scales : ℚ × ℚ) (sub_size : ℤ) (origin : ℚ × ℚ)
    (hsy : 0 < pixel_scales.1) (hsx : 0 < pixel_scales.2) (hsub : sub_size ≠ 0) :
    scaledMaskNew pixel_scales sub_size origin =
      Except.ok ⟨pixel_scales,
        ⟨sub_size, sub_size ^ 2, 1 / ((sub_size ^ 2 : ℤ) : ℚ)⟩, origin⟩ := by
  have hsub' : subMaskNew sub_size =
      Except.ok ⟨sub_size, sub_size ^ 2, 1 / ((sub_size ^ 2 : ℤ) : ℚ)⟩ := by
    unfold subMaskNew
    rw [if_neg (pow_ne_zero 2 hsub)]
  unfold scaledMaskNew
  rw [hsub']
  simp only []
  rw [if_neg (by push_neg; exact ⟨hsy, hsx⟩)]

/-- C1: blurring_mask_from_kernel_shape raises the mask exception exactly
when a kernel dimension is even, and succeeds (returning a mask) exactly when
both kernel dimensions are odd. -/
theorem blurring_mask_kernel_shape_parity (m : ScaledMaskMeta)
    (cells : List (List Bool)) (kernel_shape : ℕ × ℕ)
    (hsy : 0 < m.pixel_scales.1) (hsx : 0 < m.pixel_scales.2) :
    (blurring_mask_from_kernel_shape m cells kernel_shape =
        Except.error MaskErr.maskException ↔
      kernel_shape.1 % 2 = 0 ∨ kernel_shape.2 % 2 = 0) ∧
    ((blurring_mask_from_kernel_shape m cells kernel_shape).isOk = true ↔
      ¬(kernel_shape.1 % 2 = 0 ∨ kernel_shape.2 % 2 = 0)) := by
  have h1 := scaledMaskNew_ok m.pixel_scales 1 (0, 0) hsy hsx one_ne_zero
  unfold blurring_mask_from_kernel_shape
  by_cases hk : kernel_shape.1 % 2 = 0 ∨ kernel_shape.2 % 2 = 0
  · rw [if_pos hk]
    simp [hk, Except.isOk, Except.toBool]
  · rw [if_neg hk]
    rw [h1]
    simp [hk, Except.isOk, Except.toBool]

/-- Witness for C1: the even kernel shape (4, 3) raises the mask exception
and the odd kernel shape (3, 3) succeeds, on a concrete mask. -/
theorem blurring_mask_kernel_shape_parity_witness :
    blurring_mask_from_kernel_shape ⟨(1, 1), ⟨1, 1, 1⟩, (0, 0)⟩ [[false]] (4, 3) =
      Except.error MaskErr.maskException ∧
    (blurring_mask_from_kernel_shape ⟨(1, 1), ⟨1, 1, 1⟩, (0, 0)⟩ [[false]]
      (3, 3)).isOk = true :=
  ⟨(blurring_mask_kernel_shape_parity _ _ _ (by norm_num) (by norm_num)).1.mpr
      (by decide),
   (blurring_mask_kernel_shape_parity _ _ _ (by norm_num) (by norm_num)).2.mpr
      (by decide)⟩

/-- C4 counterexample: at a 3 by 3 mask with unit pixel scales, origin (0, 0)
and arc-second coordinates (3, 0), the source truncates -3/2 toward zero to
-1, while the claimed floor convention gives -2. -/
theorem pixel_coordinates_trunc_not_floor :
    pixel_coordinates_from_arcsec_coordinates (3, 3) (1, 1) (0, 0) (3, 0) =
      (-1, 1) ∧
    pixel_coordinates_floor_convention (3, 3) (1, 1) (0, 0) (3, 0) = (-2, 1) ∧
    ¬(((-1 : ℤ), (1 : ℤ)) = ((-2 : ℤ), (1 : ℤ))) := by
  refine ⟨?_, ?_, by decide⟩
  · unfold pixel_coordinates_from_arcsec_coordinates central_pixel_coordinates
      pyInt
    norm_num
  · unfold pixel_coordinates_floor_convention central_pixel_coordinates
    norm_num

/-- C4 amended: the conversion truncates toward zero after the +0.5 shift,
which agrees with the claimed floor convention whenever both shifted values
are nonnegative (in particular whenever the result lands inside the grid). -/
theorem pixel_coordinates_eq_floor_of_nonneg (shape : ℕ × ℕ)
    (pixel_scales origin arcsec_coordinates : ℚ × ℚ)
    (hy : 0 ≤ (-arcsec_coordinates.1 + origin.1) / pixel_scales.1
        + (central_pixel_coordinates shape).1 + 1 / 2)
    (hx : 0 ≤ (arcsec_coordinates.2 - origin.2) / pixel_scales.2
        + (central_pixel_coordinates shape).2 + 1 / 2) :
    pixel_coordinates_from_arcsec_coordinates shape pixel_scales origin
        arcsec_coordinates =
      pixel_coordinates_floor_convention shape pixel_scales origin
        arcsec_coordinates := by
  unfold pixel_coordinates_from_arcsec_coordinates
    pixel_coordinates_floor_convention
  rw [pyInt_eq_floor_of_nonneg _ hy, pyInt_eq_floor_of_nonneg _ hx]

/-- Witness for C4 at shape (3, 3), unit scales, origin (0, 0) and
arc-second coordinates (1/2, 1/2), where both shifted values are
nonnegative. -/
theorem pixel_coordinates_eq_floor_of_nonneg_witness :
    (0 ≤ (-(1 / 2 : ℚ) + 0) / 1 + (central_pixel_coordinates (3, 3)).1 + 1 / 2) ∧
    (0 ≤ ((1 / 2 : ℚ) - 0) / 1 + (central_pixel_coordinates (3, 3)).2 + 1 / 2) ∧
    pixel_coordinates_from_arcsec_coordinates (3, 3) (1, 1) (0, 0)
        (1 / 2, 1 / 2) =
      pixel_coordinates_floor_convention (3, 3) (1, 1) (0, 0) (1 / 2, 1 / 2) :=
  ⟨by norm_num [central_pixel_coordinates],
   by norm_num [central_pixel_coordinates],
   pixel_coordinates_eq_floor_of_nonneg (3, 3) (1, 1) (0, 0) (1 / 2, 1 / 2)
     (by norm_num [central_pixel_coordinates])
     (by norm_num [central_pixel_coordinates])⟩

/-- C6: on a validly constructed Scaled Mask, resizing raises the mask
exception exactly when both a pixel-space centre and an arcsec-space centre
are supplied. -/
theorem resized_mask_two_centres_error (shape : ℕ × ℕ) (m : ScaledMaskMeta)
    (new_centre_pixels : Option (ℤ × ℤ)) (new_centre_arcsec : Option (ℚ × ℚ))
    (hsy : 0 < m.pixel_scales.1) (hsx : 0 < m.pixel_scales.2)
    (hsub : m.sub.sub_size ≠ 0) :
    resized_mask_from_new_shape shape m new_centre_pixels new_centre_arcsec =
        Except.error MaskErr.maskException ↔
      new_centre_pixels.isSome = true ∧ new_centre_arcsec.isSome = true := by
  cases new_centre_pixels with
  | none =>
    cases new_centre_arcsec with
    | none =>
      simp [resized_mask_from_new_shape,
        scaledMaskNew_ok m.pixel_scales m.sub.sub_size _ hsy hsx hsub]
    | some a =>
      simp [resized_mask_from_new_shape,
        scaledMaskNew_ok m.pixel_scales m.sub.sub_size _ hsy hsx hsub]
  | some p =>
    cases new_centre_arcsec with
    | none =>
      simp [resized_mask_from_new_shape,
        scaledMaskNew_ok m.pixel_scales m.sub.sub_size _ hsy hsx hsub]
    | some a => simp [resized_mask_from_new_shape]

/-- Witness for C6: supplying both centre kinds on a concrete valid mask
raises the mask exception. -/
theorem resized_mask_two_centres_error_witness :
    resized_mask_from_new_shape (3, 3) ⟨(1, 1), ⟨2, 4, 1 / 4⟩, (0, 0)⟩
        (Option.some (1, 1)) (Option.some (1, 1)) =
      Except.error MaskErr.maskException :=
  (resized_mask_two_centres_error (3, 3) ⟨(1, 1), ⟨2, 4, 1 / 4⟩, (0, 0)⟩
    (Option.some (1, 1)) (Option.some (1, 1)) (by norm_num) (by norm_num)
    (by decide)).mpr ⟨rfl, rfl⟩

/-- C9: binning up a validly constructed Scaled Mask by an integer factor
multiplies both pixel scales by the factor and keeps sub_size and origin. -/
theorem binned_up_mask_rescales_pixel_scales (m : ScaledMaskMeta) (f : ℤ)
    (hsy : 0 < m.pixel_scales.1) (hsx : 0 < m.pixel_scales.2)
    (hf : 1 ≤ f) (hsub : m.sub.sub_size ≠ 0) :
    ∃ r : ScaledMaskMeta,
      binned_up_mask_from_bin_up_factor m f = Except.ok r ∧
      r.pixel_scales = (m.pixel_scales.1 * f, m.pixel_scales.2 * f) ∧
      r.sub.sub_size = m.sub.sub_size ∧ r.origin = m.origin := by
  have hfQ : (0 : ℚ) < (f : ℚ) := by
    exact_mod_cast lt_of_lt_of_le zero_lt_one hf
  unfold binned_up_mask_from_bin_up_factor
  exact ⟨_, scaledMaskNew_ok _ _ _ (mul_pos hsy hfQ) (mul_pos hsx hfQ) hsub,
    rfl, rfl, rfl⟩

/-- Witness for C9 on a concrete mask with scales (1, 2), sub_size 2, origin
(3, 4) and bin-up factor 3. -/
theorem binned_up_mask_rescales_pixel_scales_witness :
    ∃ r : ScaledMaskMeta,
      binned_up_mask_from_bin_up_factor ⟨(1, 2), ⟨2, 4, 1 / 4⟩, (3, 4)⟩ 3 =
        Except.ok r ∧
      r.pixel_scales = ((1 : ℚ) * (3 : ℤ), (2 : ℚ) * (3 : ℤ)) ∧
      r.sub.sub_size = 2 ∧ r.origin = (3, 4) :=
  binned_up_mask_rescales_pixel_scales ⟨(1, 2), ⟨2, 4, 1 / 4⟩, (3, 4)⟩ 3
    (by norm_num) (by norm_num) (by norm_num) (by decide)

/-- C10: with an odd kernel shape on a valid parent mask, the blurring mask
has sub_size 1 and the parent pixel scales but origin (0, 0) regardless of
the parent origin, while the edge and border masks keep the parent origin. -/
theorem blurring_mask_origin_not_copied (m : ScaledMaskMeta)
    (cells : List (List Bool)) (kernel_shape : ℕ × ℕ)
    (hsy : 0 < m.pixel_scales.1) (hsx : 0 < m.pixel_scales.2)
    (hk1 : kernel_shape.1 % 2 = 1) (hk2 : kernel_shape.2 % 2 = 1) :
    (∃ pr : List (List Bool) × ScaledMaskMeta,
      blurring_mask_from_kernel_shape m cells kernel_shape = Except.ok pr ∧
      pr.2.sub.sub_size = 1 ∧ pr.2.pixel_scales = m.pixel_scales ∧
      pr.2.origin = (0, 0) ∧ pr.1 = blurringCells cells kernel_shape) ∧
    (∃ em : ScaledMaskMeta,
      edge_or_border_mask_meta m = Except.ok em ∧
      em.sub.sub_size = 1 ∧ em.pixel_scales = m.pixel_scales ∧
      em.origin = m.origin) := by
  have h1 := scaledMaskNew_ok m.pixel_scales 1 (0, 0) hsy hsx one_ne_zero
  have h2 := scaledMaskNew_ok m.pixel_scales 1 m.origin hsy hsx one_ne_zero
  have hb : blurring_mask_from_kernel_shape m cells kernel_shape =
      Except.ok (blurringCells cells kernel_shape,
        ⟨m.pixel_scales, ⟨1, 1 ^ 2, 1 / (((1 : ℤ) ^ 2 : ℤ) : ℚ)⟩, (0, 0)⟩) := by
    unfold blurring_mask_from_kernel_shape
    rw [if_neg (by omega)]
    rw [h1]
  exact ⟨⟨_, hb, rfl, rfl, rfl, rfl⟩, ⟨_, h2, rfl, rfl, rfl⟩⟩

/-- Witness for C10 on a concrete parent mask whose origin (1, 2) differs
from (0, 0), with kernel shape (3, 3). -/
theorem blurring_mask_origin_not_copied_witness :
    (∃ pr : List (List Bool) × ScaledMaskMeta,
      blurring_mask_from_kernel_shape ⟨(1, 1), ⟨2, 4, 1 / 4⟩, (1, 2)⟩ [[false]]
          (3, 3) = Except.ok pr ∧
      pr.2.sub.sub_size = 1 ∧
      pr.2.pixel_scales = (⟨(1, 1), ⟨2, 4, 1 / 4⟩, (1, 2)⟩ :
        ScaledMaskMeta).pixel_scales ∧
      pr.2.origin = (0, 0) ∧ pr.1 = blurringCells [[false]] (3, 3)) ∧
    (∃ em : ScaledMaskMeta,
      edge_or_border_mask_meta ⟨(1, 1), ⟨2, 4, 1 / 4⟩, (1, 2)⟩ =
        Except.ok em ∧
      em.sub.sub_size = 1 ∧
      em.pixel_scales = (⟨(1, 1), ⟨2, 4, 1 / 4⟩, (1, 2)⟩ :
        ScaledMaskMeta).pixel_scales ∧
      em.origin = (⟨(1, 1), ⟨2, 4, 1 / 4⟩, (1, 2)⟩ : ScaledMaskMeta).origin) :=
  blurring_mask_origin_not_copied ⟨(1, 1), ⟨2, 4, 1 / 4⟩, (1, 2)⟩ [[false]]
    (3, 3) (by norm_num) (by norm_num) (by decide) (by decide)

/-- A fold of min over projections is bounded by its initial value. -/
theorem foldl_min_proj_le_init (g : ℕ × ℕ → ℕ) (l : List (ℕ × ℕ)) (a : ℕ) :
    List.foldl (fun b q => min b (g q)) a l ≤ a := by
  induction l generalizing a with
  | nil => exact Nat.le_refl a
  | cons h t ih =>
    exact Nat.le_trans (ih (min a (g h))) (Nat.min_le_left a (g h))

/-- A fold of min over projections is bounded by the projection of every
member of the list. -/
theorem foldl_min_proj_le_mem (g : ℕ × ℕ → ℕ) (l : List (ℕ × ℕ)) (a : ℕ)
    (x : ℕ × ℕ) (hx : x ∈ l) :
    List.foldl (fun b q => min b (g q)) a l ≤ g x := by
  induction l generalizing a with
  | nil => cases hx
  | cons h t ih =>
    rcases List.mem_cons.mp hx with rfl | hx
    · exact Nat.le_trans (foldl_min_proj_le_init g t (min a (g x)))
        (Nat.min_le_right a (g x))
    · exact ih (min a (g h)) hx

/-- A fold of max over projections dominates its initial value. -/
theorem init_le_foldl_max_proj (g : ℕ × ℕ → ℕ) (l : List (ℕ × ℕ)) (a : ℕ) :
    a ≤ List.foldl (fun b q => max b (g q)) a l := by
  induction l generalizing a with
  | nil => exact Nat.le_refl a
  | cons h t ih =>
    exact Nat.le_trans (Nat.le_max_left a (g h)) (ih (max a (g h)))

/-- A fold of max over projections dominates the projection of every member
of the list. -/
theorem mem_le_foldl_max_proj (g : ℕ × ℕ → ℕ) (l : List (ℕ × ℕ)) (a : ℕ)
    (x : ℕ × ℕ) (hx : x ∈ l) :
    g x ≤ List.foldl (fun b q => max b (g q)) a l := by
  induction l generalizing a with
  | nil => cases hx
  | cons h t ih =>
    rcases List.mem_cons.mp hx with rfl | hx
    · exact Nat.le_trans (Nat.le_max_right a (g x))
        (init_le_foldl_max_proj g t (max a (g x)))
    · exact ih (max a (g h)) hx

/-- The bounding box of a mask bounds every unmasked position. -/
theorem bboxOfMask_bounds (cells : List (List Bool)) (y0 y1 x0 x1 : ℕ)
    (h : bboxOfMask cells = Option.some (y0, y1, x0, x1)) :
    ∀ p ∈ unmaskedPositions cells,
      y0 ≤ p.1 ∧ p.1 ≤ y1 ∧ x0 ≤ p.2 ∧ p.2 ≤ x1 := by
  intro p hp
  unfold bboxOfMask at h
  rcases hq : unmaskedPositions cells with _ | ⟨q, qs⟩
  · rw [hq] at h
    cases h
  · rw [hq] at h
    simp only [Option.some.injEq, Prod.mk.injEq] at h
    obtain ⟨h1, h2, h3, h4⟩ := h
    rw [hq] at hp
    rcases List.mem_cons.mp hp with rfl | hp
    · exact ⟨h1 ▸ foldl_min_proj_le_init Prod.fst qs p.1,
        h2 ▸ init_le_foldl_max_proj Prod.fst qs p.1,
        h3 ▸ foldl_min_proj_le_init Prod.snd qs p.2,
        h4 ▸ init_le_foldl_max_proj Prod.snd qs p.2⟩
    · exact ⟨h1 ▸ foldl_min_proj_le_mem Prod.fst qs q.1 p hp,
        h2 ▸ mem_le_foldl_max_proj Prod.fst qs q.1 p hp,
        h3 ▸ foldl_min_proj_le_mem Prod.snd qs q.2 p hp,
        h4 ▸ mem_le_foldl_max_proj Prod.snd qs q.2 p hp⟩

/-- C2 amended: for every mask with at least one unmasked pixel, the zoom
region is the tight bounding box with the shorter dimension padded by the
floor of half the length difference on each side, so it contains every
unmasked pixel and is padded symmetrically, but it is square exactly when
the two bounding-box side lengths have equal parity. -/
theorem zoom_region_padded_bbox (cells : List (List Bool)) (y0 y1 x0 x1 : ℕ)
    (h : bboxOfMask cells = Option.some (y0, y1, x0, x1)) :
    ∃ ry0 ry1 rx0 rx1 : ℤ,
      zoomRegion cells = Option.some (ry0, ry1, rx0, rx1) ∧
      (∀ p ∈ unmaskedPositions cells,
        ry0 ≤ (p.1 : ℤ) ∧ (p.1 : ℤ) < ry1 ∧
        rx0 ≤ (p.2 : ℤ) ∧ (p.2 : ℤ) < rx1) ∧
      ((y0 : ℤ) - ry0 = ry1 - 1 - (y1 : ℤ) ∧
        (x0 : ℤ) - rx0 = rx1 - 1 - (x1 : ℤ)) ∧
      (ry1 - ry0 = rx1 - rx0 ↔
        ((y1 : ℤ) - y0) % 2 = ((x1 : ℤ) - x0) % 2) := by
  have hb := bboxOfMask_bounds cells y0 y1 x0 x1 h
  have hz : zoomRegion cells = Option.some (zoomFromBBox y0 y1 x0 x1) := by
    unfold zoomRegion
    rw [h]
  unfold zoomFromBBox at hz
  by_cases h1 : (x1 : ℤ) - x0 < (y1 : ℤ) - y0
  · rw [if_pos h1] at hz
    refine ⟨_, _, _, _, hz, fun p hp => ?_, ⟨by omega, by omega⟩, by
      constructor <;> intro hsq <;> omega⟩
    have := hb p hp
    omega
  · rw [if_neg h1] at hz
    by_cases h2 : (y1 : ℤ) - y0 < (x1 : ℤ) - x0
    · rw [if_pos h2] at hz
      refine ⟨_, _, _, _, hz, fun p hp => ?_, ⟨by omega, by omega⟩, by
        constructor <;> intro hsq <;> omega⟩
      have := hb p hp
      omega
    · rw [if_neg h2] at hz
      refine ⟨_, _, _, _, hz, fun p hp => ?_, ⟨by omega, by omega⟩, by
        constructor <;> intro hsq <;> omega⟩
      have := hb p hp
      omega

/-- Witness for C2 on the concrete 3 by 2 all-unmasked mask, whose bounding
box is rows 0 to 2 and columns 0 to 1. -/
theorem zoom_region_padded_bbox_witness :
    bboxOfMask [[false, false], [false, false], [false, false]] =
      Option.some (0, 2, 0, 1) ∧
    ∃ ry0 ry1 rx0 rx1 : ℤ,
      zoomRegion [[false, false], [false, false], [false, false]] =
        Option.some (ry0, ry1, rx0, rx1) ∧
      (∀ p ∈ unmaskedPositions [[false, false], [false, false], [false, false]],
        ry0 ≤ (p.1 : ℤ) ∧ (p.1 : ℤ) < ry1 ∧
        rx0 ≤ (p.2 : ℤ) ∧ (p.2 : ℤ) < rx1) ∧
      (((0 : ℕ) : ℤ) - ry0 = ry1 - 1 - ((2 : ℕ) : ℤ) ∧
        ((0 : ℕ) : ℤ) - rx0 = rx1 - 1 - ((1 : ℕ) : ℤ)) ∧
      (ry1 - ry0 = rx1 - rx0 ↔
        (((2 : ℕ) : ℤ) - (0 : ℕ)) % 2 = (((1 : ℕ) : ℤ) - (0 : ℕ)) % 2) :=
  ⟨by decide,
   zoom_region_padded_bbox [[false, false], [false, false], [false, false]]
     0 2 0 1 (by decide)⟩

/-- C2 counterexample: on the 3 by 2 all-unmasked mask the zoom region is
[0, 3, 0, 2], whose height 3 differs from its width 2, so the returned
region is not square. -/
theorem zoom_region_not_square :
    zoomRegion [[false, false], [false, false], [false, false]] =
      Option.some (0, 3, 0, 2) ∧
    ¬((3 : ℤ) - 0 = 2 - 0) := by
  decide

/-- C3 amended: for every mask the border pixels are a subset of the edge
pixels, so the edge-pixel count always dominates the border-pixel count; the
strict inequality claimed for annular masks with an interior hole does hold
for the thick annulus, whose inner-boundary pixels are edge but not border
pixels. -/
theorem border_pixels_subset_edge_pixels :
    (∀ cells : List (List Bool),
      borderPixels cells ⊆ edgePixels cells ∧
      (borderPixels cells).length ≤ (edgePixels cells).length) ∧
    (hasInteriorHole annulusThick = true ∧
      (borderPixels annulusThick).length <
        (edgePixels annulusThick).length) := by
  constructor
  · intro cells
    exact ⟨List.filter_subset' _, List.length_filter_le _ _⟩
  · have h : annulusThick =
        [[false, false, false, false, false],
         [false, false, false, false, false],
         [false, false, true, false, false],
         [false, false, false, false, false],
         [false, false, false, false, false]] := by
      unfold annulusThick
      norm_num [mask_circular_annular_sq, List.range_succ]
    rw [h]
    decide

/-- C3 counterexample: the one-pixel-thick annulus has an interior hole, yet
every edge pixel also lies on the outer boundary, so the edge-pixel count
does not strictly exceed the border-pixel count. -/
theorem annular_thin_equal_edge_border_counts :
    hasInteriorHole annulusThin = true ∧
    ¬((borderPixels annulusThin).length < (edgePixels annulusThin).length) := by
  have h : annulusThin =
      [[true, true, true, true, true],
       [true, false, false, false, true],
       [true, false, true, false, true],
       [true, false, false, false, true],
       [true, true, true, true, true]] := by
    unfold annulusThin
    norm_num [mask_circular_annular_sq, List.range_succ]
  rw [h]
  decide

end AutoArray
